import Mathlib

/-!
# Verification of the iohub throttling engine and file-handle path

Shallow embedding of the core of the iohub repository:

* `src/throttle.c` — the period-based, lock-free I/O throttling engine
  (`throttle_init`, `throttle`);
* `src/file.c` — the file-handle lifecycle (`hub_open_impl`, `hub_flush`,
  `hub_release`).

Machine integers are modelled as `Nat` with explicit `% 2 ^ w` where the C
code can overflow (all the packed-word arithmetic is on `uint64_t`).  The
hash table (`htable.c` is not part of the source tree, only its header is
used) is modelled from the spec as an association list.  Clock readings,
`open`/`close` results and CAS interference are passed in explicitly as
oracle inputs, so every function is a pure, executable Lean definition.
-/

namespace Iohub

/-! ## Constants from `throttle.c` and `throttle.h` -/

/-- `#define SECS_PER_PERIOD 5` (throttle.c line 51). -/
def SECS_PER_PERIOD : Nat := 5

/-- `#define BITS_PER_PERIOD 20` (throttle.c line 56). -/
def BITS_PER_PERIOD : Nat := 20

/-- `#define PERIOD_MASK ((1 << BITS_PER_PERIOD) - 1)` (throttle.c line 61). -/
def PERIOD_MASK : Nat := (1 <<< BITS_PER_PERIOD) - 1

/-- `#define UNKNOWN_UID 0xffffffff` (throttle.h). -/
def UNKNOWN_UID : Nat := 0xffffffff

/-- Width of the `uint64_t` word holding the packed state. -/
def WORD : Nat := 2 ^ 64

/-! ## The packed state word

`struct uid_data` (throttle.c lines 63-74) holds an immutable allocation
`full` and a packed word `cur`: top bits = remaining bytes in this period,
bottom `BITS_PER_PERIOD` bits = current period. -/

/-- `struct uid_data` (throttle.c lines 63-74): the per-UID quota record. -/
structure UidData where
  /-- Allocation that this UID should get each period.  Immutable. -/
  full : Nat
  /-- Packed word: top bits remaining bytes, bottom 20 bits period. -/
  cur : Nat
  deriving Repr, DecidableEq

/-- The period field of a packed word: `prev & PERIOD_MASK`
(throttle.c line 153). -/
def periodOf (w : Nat) : Nat := w &&& PERIOD_MASK

/-- The remaining-bytes field of a packed word: `prev >> BITS_PER_PERIOD`
(throttle.c line 160). -/
def remainingOf (w : Nat) : Nat := w >>> BITS_PER_PERIOD

/-! ## Clock readings -/

/-- A `struct timespec` returned by `clock_gettime(CLOCK_MONOTONIC_RAW, ...)`.
The monotonic raw clock is never negative, so both fields are `Nat`; a valid
reading has `nsec < 10 ^ 9`. -/
structure Timespec where
  sec : Nat
  nsec : Nat
  deriving Repr, DecidableEq

/-- `cur_period = (cur.tv_sec / SECS_PER_PERIOD) & PERIOD_MASK`
(throttle.c line 152). -/
def curPeriod (t : Timespec) : Nat := (t.sec / SECS_PER_PERIOD) &&& PERIOD_MASK

/-! ## One iteration of the `throttle` loop (throttle.c lines 143-186) -/

/-- The available budget computed at throttle.c lines 154-161: if the period
has changed, `avail = udata->full << BITS_PER_PERIOD` (a `uint64_t` shift,
hence reduced mod `2 ^ 64`); otherwise `avail = prev >> BITS_PER_PERIOD`. -/
def availCalc (full prev : Nat) (t : Timespec) : Nat :=
  if curPeriod t ≠ periodOf prev then
    (full <<< BITS_PER_PERIOD) % WORD
  else
    remainingOf prev

/-- The sleep delay computed at throttle.c lines 170-171:
`delta.tv_sec = ((cur_period + 1) * SECS_PER_PERIOD) - cur.tv_sec` (signed
`time_t` arithmetic, so `Int`) and `delta.tv_nsec = 1000000000 - cur.tv_nsec`. -/
def deltaOf (t : Timespec) : Int × Int :=
  (((curPeriod t : Int) + 1) * (SECS_PER_PERIOD : Int) - (t.sec : Int),
   1000000000 - (t.nsec : Int))

/-- The new packed word built at throttle.c lines 176-177:
`avail -= amt; next = cur_period | (avail << BITS_PER_PERIOD)` on `uint64_t`. -/
def packNext (t : Timespec) (avail amt : Nat) : Nat :=
  curPeriod t ||| (((avail - amt) <<< BITS_PER_PERIOD) % WORD)

/-- Result of one iteration of the `while (1)` loop in `throttle`. -/
inductive IterResult where
  /-- `avail ≥ amt`: attempt a CAS from `prev` to the given `next` word. -/
  | grant (next : Nat)
  /-- `avail < amt` and `amt > udata->full`: `abort()` (throttle.c line 167). -/
  | oversize
  /-- `avail < amt` and `amt ≤ udata->full`: `nanosleep(delta)`, re-read and
  retry (throttle.c lines 169-174). -/
  | sleep (dsec dnsec : Int)
  deriving Repr, DecidableEq

/-- One iteration of the loop body of `throttle` (throttle.c lines 143-186),
given the record's allocation `full`, the last-read packed word `prev`, the
requested amount `amt`, and the clock reading `t` of this iteration.
`availCalc full prev t` is the local `avail` of the C code. -/
def throttleIter (full prev amt : Nat) (t : Timespec) : IterResult :=
  if availCalc full prev t < amt then
    if full < amt then
      IterResult.oversize
    else
      IterResult.sleep (deltaOf t).1 (deltaOf t).2
  else
    IterResult.grant (packNext t (availCalc full prev t) amt)

/-! ## The full retry loop

Clock readings arrive as a list (one per iteration).  Interference from
concurrent threads is an oracle list consumed at each shared-memory event
after the initial read: an entry `none` means the word still holds the value
this thread last read (so the re-read returns `prev`, and a CAS succeeds);
`some v` means the word currently holds `v`. -/

/-- Result of a whole `throttle` call. -/
inductive LoopResult where
  /-- Ran out of fuel / clock readings (the real loop would keep running). -/
  | outOfFuel
  /-- `abort()` was reached: the process terminates, nothing was granted. -/
  | aborted
  /-- The CAS succeeded: `udata->cur` was atomically set to `next`. -/
  | granted (next : Nat)
  deriving Repr, DecidableEq

/-- The `while (1)` loop of `throttle` (throttle.c lines 143-186). `prev` is
the packed word read at line 142; `times` supplies the `clock_gettime`
results; `env` supplies the interference oracle. -/
def throttleLoop (full amt : Nat) :
    Nat → Nat → List Timespec → List (Option Nat) → LoopResult
  | 0, _, _, _ => LoopResult.outOfFuel
  | _ + 1, _, [], _ => LoopResult.outOfFuel
  | fuel + 1, prev, t :: ts, env =>
    match throttleIter full prev amt t with
    | IterResult.oversize => LoopResult.aborted
    | IterResult.sleep _ _ =>
      -- nanosleep, then `prev = __sync_fetch_and_or(&udata->cur, 0)` and retry
      match env with
      | [] => throttleLoop full amt fuel prev ts []
      | o :: es => throttleLoop full amt fuel (o.getD prev) ts es
    | IterResult.grant next =>
      -- `nprev = __sync_val_compare_and_swap(&udata->cur, prev, next)`
      match env with
      | [] => LoopResult.granted next
      | o :: es =>
        match o with
        | none => LoopResult.granted next
        | some v =>
          if v = prev then LoopResult.granted next
          else throttleLoop full amt fuel v ts es

/-! ## The quota table

`htable.c` is not part of the source tree (only `htable.h` is included), so
the table itself is modelled from the spec. -/

/-- Modelled from the spec: the hash table of `htable.c` (absent from the
source tree; the spec describes it as a mapping "identity → QuotaRecord,
built once before serving any request").  `htable_get` is association-list
lookup. -/
def htableGet (tbl : List (Nat × UidData)) (k : Nat) : Option UidData :=
  match tbl with
  | [] => none
  | (k', d) :: rest => if k' = k then some d else htableGet rest k

/-- Modelled from the spec: `htable_put` stores a fresh binding and fails
(nonzero return, here `none`) when the key is already present. -/
def htablePut (tbl : List (Nat × UidData)) (k : Nat) (d : UidData) :
    Option (List (Nat × UidData)) :=
  match htableGet tbl k with
  | some _ => none
  | none => some (tbl ++ [(k, d)])

/-- One `struct uid_config` entry: `(uid, full)` (throttle.h). -/
structure UidConfig where
  uid : Nat
  full : Nat
  deriving Repr, DecidableEq

/-- The insertion loop of `throttle_init` (throttle.c lines 112-121)
followed by the `UNKNOWN_UID` presence check (lines 122-127): each config
entry becomes a zeroed record (`xcalloc`) with `full` copied from the
config; `htable_put` failure or a missing `UNKNOWN_UID` entry aborts the
process (modelled as `none`). -/
def throttleInitLoop : List UidConfig → List (Nat × UidData) →
    Option (List (Nat × UidData))
  | [], tbl => if (htableGet tbl UNKNOWN_UID).isSome then some tbl else none
  | conf :: rest, tbl =>
    match htablePut tbl conf.uid { full := conf.full, cur := 0 } with
    | none => none
    | some tbl' => throttleInitLoop rest tbl'

/-- `throttle_init` (throttle.c lines 97-128): build the UID table from the
config list, starting from the freshly allocated empty table. -/
def throttle_init (list : List UidConfig) : Option (List (Nat × UidData)) :=
  throttleInitLoop list []

/-- The record-resolution step of `throttle` (throttle.c lines 138-141):
`udata = htable_get(uid); if (!udata) udata = htable_get(UNKNOWN_UID);`. -/
def resolveData (tbl : List (Nat × UidData)) (uid : Nat) : Option UidData :=
  match htableGet tbl uid with
  | some d => some d
  | none => htableGet tbl UNKNOWN_UID

/-- The key whose record `throttle` resolves for `uid`. -/
def resolveKey (tbl : List (Nat × UidData)) (uid : Nat) : Nat :=
  if (htableGet tbl uid).isSome then uid else UNKNOWN_UID

/-- Overwrite the `cur` field of the record stored under key `k` — the one
store `throttle` performs on shared state (the CAS at throttle.c line 178). -/
def setCur (tbl : List (Nat × UidData)) (k : Nat) (v : Nat) :
    List (Nat × UidData) :=
  tbl.map fun p =>
    match p with
    | (k', d) => if k' = k then (k', { d with cur := v }) else (k', d)

/-- A whole `throttle(uid, amt)` call (throttle.c lines 130-187) acting on
the quota table: resolve the record (lines 138-141), read its packed word
(line 142), run the retry loop, and on a successful CAS store the new packed
word into the resolved record's `cur`.  If even the `UNKNOWN_UID` record is
absent the C code dereferences NULL and dies; the table is returned
unchanged in that case and on `abort()`. -/
def throttleCall (tbl : List (Nat × UidData)) (uid amt fuel : Nat)
    (times : List Timespec) (env : List (Option Nat)) :
    LoopResult × List (Nat × UidData) :=
  match resolveData tbl uid with
  | none => (LoopResult.aborted, tbl)
  | some d =>
    match throttleLoop d.full amt fuel d.cur times env with
    | LoopResult.granted next =>
      (LoopResult.granted next, setCur tbl (resolveKey tbl uid) next)
    | r => (r, tbl)

/-! ## File handles (`src/file.c`)

`struct hub_file` owns one file descriptor.  Syscall outcomes (`calloc`,
`open`, `close`) are oracle inputs; the embedding records which descriptors
were closed and whether the handle object was freed, so resource handling is
observable. -/

/-- `ENOMEM` (the error returned when `calloc` fails in `hub_open_impl`). -/
def ENOMEM : Nat := 12

/-- `O_ACCMODE` (the two low access-mode bits of open flags). -/
def O_ACCMODE : Nat := 3

/-- `O_RDONLY` (numerically zero). -/
def O_RDONLY : Nat := 0

/-- Oracle outcomes for the two fallible steps of `hub_open_impl`:
whether `calloc` succeeds, and what `open(2)` returns (a descriptor, or an
`errno` on failure). -/
structure OpenEnv where
  callocOk : Bool
  openRes : Except Nat Nat
  deriving Repr

/-- Observable outcome of `hub_open_impl`: the returned value, what was
stored into `info->fh`, every descriptor obtained from `open`, every
descriptor passed to `close`, and whether the `hub_file` object was freed. -/
structure OpenOut where
  ret : Int
  fh : Option Nat
  opened : List Nat
  closed : List Nat
  freedHandle : Bool
  deriving Repr, DecidableEq

/-- The flag fix-up at file.c lines 74-78: `flags = addflags | info->flags;`
then `if ((flags & O_ACCMODE) == 0) flags |= O_RDONLY;`. -/
def openEffectiveFlags (addflags infoFlags : Nat) : Nat :=
  let flags := addflags ||| infoFlags
  if flags &&& O_ACCMODE = 0 then flags ||| O_RDONLY else flags

/-- The shared exit path of `hub_open_impl` (file.c lines 86-107): on
success return 0; on failure close the descriptor if one was opened
(`file->fd >= 0`), free the handle if it was allocated, and return `ret`.
`fd` is `some n` when a `hub_file` was allocated and its `fd` field holds a
real descriptor (the field is initialized to `-1`, modelled as `none`). -/
def openCleanup (ret : Int) (allocated : Bool) (fd : Option Nat)
    (fh : Option Nat) (opened : List Nat) : OpenOut :=
  if ret = 0 then
    { ret := 0, fh := fh, opened := opened, closed := [], freedHandle := false }
  else if allocated then
    { ret := ret, fh := fh, opened := opened,
      closed := match fd with | some n => [n] | none => [],
      freedHandle := true }
  else
    { ret := ret, fh := fh, opened := opened, closed := [],
      freedHandle := false }

/-- `hub_open_impl` (file.c lines 58-108): allocate the handle, default the
access mode, `open` the backing path, and publish the handle into
`info->fh` only after the open succeeded; any failure flows through
`openCleanup`.  When `calloc` fails, `open` is never invoked (the `goto
error` comes first), so nothing is opened. -/
def hub_open_impl (env : OpenEnv) : OpenOut :=
  if ¬ env.callocOk then
    openCleanup (-(ENOMEM : Int)) false none none []
  else
    match env.openRes with
    | Except.error e => openCleanup (-(e : Int)) true none none []
    | Except.ok fd => openCleanup 0 true (some fd) (some fd) [fd]

/-- `hub_flush` (file.c lines 170-184): state-passing over an abstract
system state (handles, quota table, backing file): the body performs no
syscall and touches nothing, it just returns 0. -/
def hub_flush {State : Type} (s : State) : Int × State :=
  (0, s)

/-- Observable outcome of `hub_release`: returned value, every descriptor
passed to `close`, and whether the handle memory was freed. -/
structure ReleaseOut where
  ret : Int
  closeCalls : List Nat
  freed : Bool
  deriving Repr, DecidableEq

/-- `hub_release` (file.c lines 186-206): `close(file->fd)` is invoked once;
a failing close (oracle `some errno`, e.g. `EINTR`) sets `ret = -errno` and
is not retried; the handle is freed in either case. -/
def hub_release (fd : Nat) (closeRes : Option Nat) : ReleaseOut :=
  let ret : Int := match closeRes with
    | some e => -(e : Int)
    | none => 0
  { ret := ret, closeCalls := [fd], freed := true }

/-! ## Spec-side quantities

Definitions that follow the spec's words, kept for comparison against the
source-derived definitions above. -/

/-- Spec-side: the wall-clock time, in nanoseconds, from the reading `t`
until the boundary of the next period ("Compute the wall-clock delay until
the boundary of the *next* period"), using the true, unmasked period number
`t.sec / SECS_PER_PERIOD`. -/
def specTimeToNextBoundaryNs (t : Timespec) : Int :=
  (((t.sec / SECS_PER_PERIOD : Nat) : Int) + 1) * (SECS_PER_PERIOD : Int)
      * 1000000000
    - ((t.sec : Int) * 1000000000 + (t.nsec : Int))

/-- Total duration, in nanoseconds, of a `struct timespec` delay with the
given (signed) seconds and nanoseconds fields. -/
def sleepDelayNs (d1 d2 : Int) : Int := d1 * 1000000000 + d2

/-! ## Helper lemmas -/

theorem curPeriod_eq_mod (t : Timespec) :
    curPeriod t = (t.sec / SECS_PER_PERIOD) % 2 ^ BITS_PER_PERIOD := by
  simp [curPeriod, PERIOD_MASK, Nat.one_shiftLeft,
    Nat.and_pow_two_sub_one_eq_mod]

theorem periodOf_eq_mod (w : Nat) : periodOf w = w % 2 ^ BITS_PER_PERIOD := by
  simp [periodOf, PERIOD_MASK, Nat.one_shiftLeft,
    Nat.and_pow_two_sub_one_eq_mod]

theorem throttleIter_sleep_inv (full prev amt : Nat) (t : Timespec)
    (d1 d2 : Int) (h : throttleIter full prev amt t = IterResult.sleep d1 d2) :
    d1 = (deltaOf t).1 ∧ d2 = (deltaOf t).2 := by
  unfold throttleIter at h
  split at h
  · split at h
    · simp at h
    · injection h with h1 h2
      exact ⟨h1.symm, h2.symm⟩
  · simp at h

/-! ## Claim theorems -/

/-- C1: the claim states that after a period rollover the available budget
equals exactly the record's `period_allocation` in bytes.  The code
(throttle.c line 157) instead computes `udata->full << BITS_PER_PERIOD`:
with `full = 100` bytes, a record recorded in period 0 (`packed_state = 0`)
and an attempt in period 1 (time 5s), the available budget is
`100 * 2 ^ 20 = 104857600` bytes, not `100`. -/
theorem throttle_renewal_budget_is_shifted_not_full :
    curPeriod ⟨5, 0⟩ ≠ periodOf 0 ∧
    availCalc 100 0 ⟨5, 0⟩ = 104857600 ∧
    (104857600 : Nat) ≠ 100 := by decide

/-- C2: the claim states `remaining_bytes ≤ period_allocation` after every
acquire step from the all-zero state, equivalently that the bytes granted
within one period never exceed `period_allocation`.  The code violates
both: starting from `cur = 0` with `full = 100`, a single granted acquire
of 50 bytes in period 1 stores `remaining = 104857550 > 100`; and two
60-byte acquires are both granted inside the same period 1 (total 120 >
100), exercised here through `throttleCall` on a table built like
`throttle_init` builds it. -/
theorem throttle_remaining_exceeds_allocation :
    (throttleLoop 100 50 1 0 [⟨5, 0⟩] [] =
        LoopResult.granted 109951110348801 ∧
      remainingOf 109951110348801 = 104857550 ∧
      ¬ remainingOf 109951110348801 ≤ 100) ∧
    (throttleCall [(1000, ⟨100, 0⟩), (UNKNOWN_UID, ⟨7, 0⟩)] 1000 60 1
        [⟨5, 0⟩] [] =
      (LoopResult.granted 109951099863041,
        [(1000, ⟨100, 109951099863041⟩), (UNKNOWN_UID, ⟨7, 0⟩)]) ∧
      throttleCall [(1000, ⟨100, 109951099863041⟩), (UNKNOWN_UID, ⟨7, 0⟩)]
        1000 60 1 [⟨6, 0⟩] [] =
      (LoopResult.granted 109951036948481,
        [(1000, ⟨100, 109951036948481⟩), (UNKNOWN_UID, ⟨7, 0⟩)]) ∧
      periodOf 109951099863041 = curPeriod ⟨5, 0⟩ ∧
      curPeriod ⟨6, 0⟩ = curPeriod ⟨5, 0⟩ ∧
      ¬ 60 + 60 ≤ 100) := by decide

/-- C3: the claim states that `throttle` with `amt > full` aborts and never
grants.  The code only aborts when `avail < amt` (throttle.c lines
162-168); because the renewal branch sets `avail = full << 20`, a request
of 101 bytes against `full = 100` made in a fresh period is granted and the
call returns normally. -/
theorem throttle_oversize_request_is_granted :
    100 < 101 ∧
    throttleLoop 100 101 1 0 [⟨5, 0⟩] [] =
      LoopResult.granted 109951056871425 := by decide

/-- C4 counterexample: a packed state recorded in absolute period 0 (here
`30 <<< 20`, period field 0, remaining 30) examined `2 ^ 20` periods later
(time `5 * 2 ^ 20 = 5242880` s) is classified as *current*: the masked
period identifiers collide, so the stale remaining 30 is used instead of
the renewal branch — refuting "regardless of how many periods have
elapsed". -/
theorem stale_period_mistaken_for_current_after_wrap :
    periodOf (30 <<< BITS_PER_PERIOD) = 0 ∧
    5242880 / SECS_PER_PERIOD = 2 ^ BITS_PER_PERIOD ∧
    curPeriod ⟨5242880, 0⟩ = periodOf (30 <<< BITS_PER_PERIOD) ∧
    availCalc 100 (30 <<< BITS_PER_PERIOD) ⟨5242880, 0⟩ = 30 := by decide

/-- C4 amended: a recorded state from absolute period `p0` examined during
a later absolute period `p1` is classified as stale (and the renewal branch
of `availCalc` is taken) whenever the number of elapsed periods is not a
multiple of `2 ^ BITS_PER_PERIOD`; only at exact multiples of `2 ^ 20`
periods is a stale state mistaken for the current one. -/
theorem stale_period_detected_unless_count_is_wrap_multiple
    (full prev p0 p1 : Nat) (t : Timespec)
    (hrec : periodOf prev = p0 % 2 ^ BITS_PER_PERIOD)
    (ht : t.sec / SECS_PER_PERIOD = p1)
    (_helapsed : p0 < p1)
    (hnw : (p1 - p0) % 2 ^ BITS_PER_PERIOD ≠ 0) :
    curPeriod t ≠ periodOf prev ∧
    availCalc full prev t = (full <<< BITS_PER_PERIOD) % WORD := by
  have hne : curPeriod t ≠ periodOf prev := by
    rw [curPeriod_eq_mod, ht, hrec]
    intro h
    exact hnw (Nat.sub_mod_eq_zero_of_mod_eq h)
  exact ⟨hne, by simp [availCalc, hne]⟩

/-- C4 witness: one period after recording (1 period elapsed, not a
multiple of `2 ^ 20`), the amended theorem applies and yields the renewal
branch. -/
theorem stale_period_detected_witness :
    curPeriod ⟨5, 0⟩ ≠ periodOf (30 <<< BITS_PER_PERIOD) ∧
    availCalc 100 (30 <<< BITS_PER_PERIOD) ⟨5, 0⟩ =
      (100 <<< BITS_PER_PERIOD) % WORD :=
  stale_period_detected_unless_count_is_wrap_multiple
    100 (30 <<< BITS_PER_PERIOD) 0 1 ⟨5, 0⟩
    (by decide) (by decide) (by decide) (by decide)

/-- C5 counterexample: at time 0s (period 0) with `full = 1`, `prev = 0`,
`amt = 1`, the sleep branch is taken with `delta = (5 s, 1000000000 ns)`, a
total of 6 seconds — not equal to the 5 seconds remaining until the next
period boundary, and exceeding `SECS_PER_PERIOD`. -/
theorem sleep_delay_neither_exact_nor_bounded_by_period :
    throttleIter 1 0 1 ⟨0, 0⟩ = IterResult.sleep 5 1000000000 ∧
    sleepDelayNs 5 1000000000 = 6000000000 ∧
    specTimeToNextBoundaryNs ⟨0, 0⟩ = 5000000000 ∧
    sleepDelayNs 5 1000000000 ≠ specTimeToNextBoundaryNs ⟨0, 0⟩ ∧
    ¬ sleepDelayNs 5 1000000000 ≤
        (SECS_PER_PERIOD : Int) * 1000000000 := by decide

/-- C5 amended: whenever `throttle` takes the sleep branch (available
budget below the request, request within the allocation), the delay it
passes to `nanosleep` equals the wall-clock time until the next period
boundary *plus one second*, and is therefore at most
`SECS_PER_PERIOD + 1 = 6` seconds — provided the monotonic time is still
below the 20-bit period-counter wrap and the nanosecond field is a valid
timespec value. -/
theorem sleep_delay_is_time_to_boundary_plus_one_second
    (full prev amt : Nat) (t : Timespec) (d1 d2 : Int)
    (hsec : t.sec < SECS_PER_PERIOD * 2 ^ BITS_PER_PERIOD)
    (hnsec : t.nsec < 1000000000)
    (h : throttleIter full prev amt t = IterResult.sleep d1 d2) :
    sleepDelayNs d1 d2 = specTimeToNextBoundaryNs t + 1000000000 ∧
    sleepDelayNs d1 d2 ≤ ((SECS_PER_PERIOD : Int) + 1) * 1000000000 := by
  obtain ⟨h1, h2⟩ := throttleIter_sleep_inv full prev amt t d1 d2 h
  subst h1
  subst h2
  have hq : t.sec / SECS_PER_PERIOD < 2 ^ BITS_PER_PERIOD :=
    Nat.div_lt_of_lt_mul hsec
  have hcp : curPeriod t = t.sec / SECS_PER_PERIOD := by
    rw [curPeriod_eq_mod]
    exact Nat.mod_eq_of_lt hq
  have hdm := Nat.div_add_mod t.sec SECS_PER_PERIOD
  have hrlt : t.sec % SECS_PER_PERIOD < SECS_PER_PERIOD :=
    Nat.mod_lt _ (by decide)
  simp only [sleepDelayNs, deltaOf, specTimeToNextBoundaryNs, hcp,
    SECS_PER_PERIOD] at *
  constructor <;> omega

/-- C5 witness: the amended theorem applied at time 0s with `full = 1`,
`prev = 0`, `amt = 1`. -/
theorem sleep_delay_plus_one_second_witness :
    sleepDelayNs 5 1000000000 = specTimeToNextBoundaryNs ⟨0, 0⟩ + 1000000000 ∧
    sleepDelayNs 5 1000000000 ≤ ((SECS_PER_PERIOD : Int) + 1) * 1000000000 :=
  sleep_delay_is_time_to_boundary_plus_one_second 1 0 1 ⟨0, 0⟩ 5 1000000000
    (by decide) (by decide) (by decide)

/-- If the `throttle_init` insertion loop returns a table, that table
contains an `UNKNOWN_UID` entry (the check at throttle.c lines 122-127
aborted otherwise). -/
theorem throttleInitLoop_has_unknown (l : List UidConfig) :
    ∀ acc tbl, throttleInitLoop l acc = some tbl →
      (htableGet tbl UNKNOWN_UID).isSome := by
  induction l with
  | nil =>
    intro acc tbl h
    unfold throttleInitLoop at h
    split at h
    · rename_i hs
      cases h
      exact hs
    · cases h
  | cons c rest ih =>
    intro acc tbl h
    unfold throttleInitLoop at h
    cases hp : htablePut acc c.uid { full := c.full, cur := 0 } with
    | none => rw [hp] at h; cases h
    | some tbl' => rw [hp] at h; exact ih tbl' tbl h

/-- C6: provided `throttle_init` succeeded, the lookup inside `throttle`
(own record, else the `UNKNOWN_UID` record) always resolves to a record;
a configured identity gets its own record, and every unconfigured identity
gets the single shared `UNKNOWN_UID` record. -/
theorem throttle_lookup_always_resolves
    (configs : List UidConfig) (tbl : List (Nat × UidData))
    (hinit : throttle_init configs = some tbl) :
    (∀ uid, ∃ d, resolveData tbl uid = some d) ∧
    (∀ uid d, htableGet tbl uid = some d → resolveData tbl uid = some d) ∧
    (∀ uid, htableGet tbl uid = none →
      resolveData tbl uid = htableGet tbl UNKNOWN_UID) := by
  have hu : (htableGet tbl UNKNOWN_UID).isSome := by
    unfold throttle_init at hinit
    exact throttleInitLoop_has_unknown configs [] tbl hinit
  obtain ⟨u, hu'⟩ := Option.isSome_iff_exists.mp hu
  refine ⟨?_, ?_, ?_⟩
  · intro uid
    cases hg : htableGet tbl uid with
    | some d => exact ⟨d, by simp [resolveData, hg]⟩
    | none => exact ⟨u, by simp [resolveData, hg, hu']⟩
  · intro uid d hg
    simp [resolveData, hg]
  · intro uid hg
    simp [resolveData, hg]

/-- C6 witness: with the configuration `[(1000, 100), (UNKNOWN_UID, 7)]`,
the unconfigured identity 42 resolves to a record. -/
theorem throttle_lookup_resolves_witness :
    ∃ d, resolveData [(1000, ⟨100, 0⟩), (UNKNOWN_UID, ⟨7, 0⟩)] 42 = some d :=
  (throttle_lookup_always_resolves
      [⟨1000, 100⟩, ⟨UNKNOWN_UID, 7⟩]
      [(1000, ⟨100, 0⟩), (UNKNOWN_UID, ⟨7, 0⟩)]
      (by decide)).1 42

/-- C7: `hub_open_impl` publishes a handle into `info->fh` exactly when
every step succeeded; on any failure it returns the negative OS error code
of the step that failed (`-ENOMEM` for the allocation, `-errno` of `open`
otherwise), stores no handle, closes every descriptor it had opened, and
frees the handle object if one had been allocated. -/
theorem hub_open_no_partial_handle (env : OpenEnv)
    (herr : ∀ e, env.openRes = Except.error e → 0 < e) :
    ((hub_open_impl env).ret = 0 →
      ∃ fd, env.openRes = Except.ok fd ∧ env.callocOk = true ∧
        (hub_open_impl env).fh = some fd) ∧
    ((hub_open_impl env).ret ≠ 0 →
      (hub_open_impl env).ret < 0 ∧
      (hub_open_impl env).fh = none ∧
      (∀ fd, fd ∈ (hub_open_impl env).opened →
        fd ∈ (hub_open_impl env).closed) ∧
      (hub_open_impl env).freedHandle = env.callocOk ∧
      (env.callocOk = false → (hub_open_impl env).ret = -(ENOMEM : Int)) ∧
      (env.callocOk = true → ∀ e, env.openRes = Except.error e →
        (hub_open_impl env).ret = -(e : Int))) := by
  obtain ⟨c, r⟩ := env
  cases c
  · cases r <;> simp [hub_open_impl, openCleanup, ENOMEM]
  · cases r with
    | error e =>
      have he : 0 < e := herr e rfl
      have hne : -(e : Int) ≠ 0 := by omega
      have hlt : -(e : Int) < 0 := by omega
      simp [hub_open_impl, openCleanup, hne, hlt]
    | ok fd => simp [hub_open_impl, openCleanup]

/-- C7 witness: a failing `open` with `errno = 2` (`ENOENT`) after a
successful allocation yields return value `-2`, no published handle, and a
freed handle object. -/
theorem hub_open_failure_witness :
    (hub_open_impl ⟨true, Except.error 2⟩).ret < 0 ∧
    (hub_open_impl ⟨true, Except.error 2⟩).fh = none ∧
    (hub_open_impl ⟨true, Except.error 2⟩).freedHandle = true := by
  have h := (hub_open_no_partial_handle ⟨true, Except.error 2⟩
    (by rintro e he; injection he with h2; omega)).2 (by decide)
  exact ⟨h.1, h.2.1, by rw [h.2.2.2.1]⟩

/-- C8: `hub_flush` always returns 0 and leaves the entire system state
(handles, quota records, backing file) untouched — a true no-op. -/
theorem hub_flush_is_noop {State : Type} (s : State) :
    hub_flush s = ((0 : Int), s) := rfl

/-- C9: `hub_release` invokes `close` exactly once on the handle's owned
descriptor (no retry even when close fails, e.g. with `EINTR`), frees the
handle memory in either case, and returns 0 on success or the negative
error code of the failed close. -/
theorem hub_release_closes_once_and_frees (fd : Nat) (closeRes : Option Nat) :
    (hub_release fd closeRes).closeCalls = [fd] ∧
    (hub_release fd closeRes).freed = true ∧
    (closeRes = none → (hub_release fd closeRes).ret = 0) ∧
    (∀ e, closeRes = some e → (hub_release fd closeRes).ret = -(e : Int)) := by
  refine ⟨rfl, rfl, ?_, ?_⟩
  · intro h
    simp [hub_release, h]
  · intro e h
    simp [hub_release, h]

/-- C9 witness: a close failing with `EINTR = 4` is reported as `-4`, the
descriptor is closed exactly once, and the handle is freed. -/
theorem hub_release_eintr_witness :
    (hub_release 5 (some 4)).closeCalls = [5] ∧
    (hub_release 5 (some 4)).freed = true ∧
    (hub_release 5 (some 4)).ret = -(4 : Int) := by
  have h := hub_release_closes_once_and_frees 5 (some 4)
  exact ⟨h.1, h.2.1, h.2.2.2 4 rfl⟩

/-- `setCur` preserves the key and allocation of every entry: it only ever
rewrites the `cur` field. -/
theorem setCur_map_key_full (tbl : List (Nat × UidData)) (k v : Nat) :
    (setCur tbl k v).map (fun p => (p.1, p.2.full)) =
      tbl.map (fun p => (p.1, p.2.full)) := by
  induction tbl with
  | nil => rfl
  | cons p rest ih =>
    simp only [setCur, List.map_cons] at *
    rw [ih]
    by_cases hp : p.1 = k <;> simp [hp]

/-- Lookup after `setCur` at a different key reads back unchanged. -/
theorem htableGet_setCur_ne (tbl : List (Nat × UidData)) (k v k' : Nat)
    (h : k' ≠ k) : htableGet (setCur tbl k v) k' = htableGet tbl k' := by
  induction tbl with
  | nil => rfl
  | cons p rest ih =>
    obtain ⟨pk, pd⟩ := p
    simp only [setCur, List.map_cons] at *
    by_cases hp : pk = k
    · rw [if_pos hp]
      have hpk' : ¬ pk = k' := fun hh => h (by rw [← hh, hp])
      simp only [htableGet]
      rw [if_neg hpk', if_neg hpk']
      exact ih
    · rw [if_neg hp]
      simp only [htableGet]
      by_cases hk' : pk = k'
      · rw [if_pos hk', if_pos hk']
      · rw [if_neg hk', if_neg hk']
        exact ih

/-- Lookup after `setCur` at the written key: only the `cur` field moved. -/
theorem htableGet_setCur_eq (tbl : List (Nat × UidData)) (k v : Nat) :
    htableGet (setCur tbl k v) k =
      Option.map (fun d => { d with cur := v }) (htableGet tbl k) := by
  induction tbl with
  | nil => rfl
  | cons p rest ih =>
    obtain ⟨pk, pd⟩ := p
    simp only [setCur, List.map_cons] at *
    by_cases hp : pk = k
    · rw [if_pos hp]
      simp only [htableGet]
      rw [if_pos hp, if_pos hp]
      rfl
    · rw [if_neg hp]
      simp only [htableGet]
      rw [if_neg hp, if_neg hp]
      exact ih

/-- C10: whatever path a `throttle` call takes (immediate grant, sleep and
retry, CAS retry, or abort), the table it leaves behind has exactly the
same keys with exactly the same `full` allocations, every record's `full`
reads back unchanged, and every record other than the resolved one is
untouched entirely — the only thing ever written is the resolved record's
`cur` word. -/
theorem throttle_preserves_table_and_allocations
    (tbl : List (Nat × UidData)) (uid amt fuel : Nat)
    (times : List Timespec) (env : List (Option Nat)) :
    ((throttleCall tbl uid amt fuel times env).2.map
        (fun p => (p.1, p.2.full)) =
      tbl.map (fun p => (p.1, p.2.full))) ∧
    (∀ k, Option.map UidData.full
        (htableGet (throttleCall tbl uid amt fuel times env).2 k) =
      Option.map UidData.full (htableGet tbl k)) ∧
    (∀ k, k ≠ resolveKey tbl uid →
      htableGet (throttleCall tbl uid amt fuel times env).2 k =
        htableGet tbl k) := by
  have htbl2 : (throttleCall tbl uid amt fuel times env).2 = tbl ∨
      ∃ next, (throttleCall tbl uid amt fuel times env).2 =
        setCur tbl (resolveKey tbl uid) next := by
    unfold throttleCall
    cases resolveData tbl uid with
    | none => exact Or.inl rfl
    | some d =>
      dsimp only
      cases throttleLoop d.full amt fuel d.cur times env with
      | outOfFuel => exact Or.inl rfl
      | aborted => exact Or.inl rfl
      | granted next => exact Or.inr ⟨next, rfl⟩
  rcases htbl2 with h | ⟨next, h⟩
  · rw [h]
    exact ⟨rfl, fun _ => rfl, fun _ _ => rfl⟩
  · rw [h]
    refine ⟨setCur_map_key_full tbl (resolveKey tbl uid) next, ?_, ?_⟩
    · intro k
      by_cases hk : k = resolveKey tbl uid
      · subst hk
        rw [htableGet_setCur_eq]
        cases htableGet tbl (resolveKey tbl uid) with
        | none => rfl
        | some d => rfl
      · rw [htableGet_setCur_ne tbl (resolveKey tbl uid) next k hk]
    · intro k hk
      exact htableGet_setCur_ne tbl (resolveKey tbl uid) next k hk

/-- C10 witness: a call by the unconfigured identity 3 (resolving to the
`UNKNOWN_UID` record) leaves the unrelated key 7 reading back unchanged. -/
theorem throttle_frame_witness :
    htableGet (throttleCall [(UNKNOWN_UID, ⟨100, 0⟩)] 3 50 1
        [⟨5, 0⟩] []).2 7 =
      htableGet [(UNKNOWN_UID, ⟨100, 0⟩)] 7 :=
  (throttle_preserves_table_and_allocations
      [(UNKNOWN_UID, ⟨100, 0⟩)] 3 50 1 [⟨5, 0⟩] []).2.2 7 (by decide)

end Iohub
